import Mathlib

/-!
Verification of the Flippin real-time game server (`server.js`, latest
revision).  The definitions below are a shallow embedding of the server's
room state machine: JavaScript objects become structures, the mutable room
becomes explicit state passing, socket emissions become an explicit list of
`Emit` values, the `setTimeout` flip-back callback becomes a deferred
action recorded in the flip result, and code paths that would throw a
`TypeError` in JavaScript (field access on `undefined`) return `none`.
The `Math.random()` source of the Fisher-Yates shuffle is modelled as an
explicit stream `js : Nat → Nat` of random draws, reduced modulo the
bound `i + 1` exactly as `Math.floor(Math.random() * (i + 1))` produces a
value in `[0, i]`.
-/

namespace Flippin

/-- One card of the deck, as created in `createNewGameState`. -/
structure Card where
  pairId : Nat
  animal : String
  emoji : String
  revealed : Bool
  matched : Bool
deriving DecidableEq

/-- One player record, as pushed on connection.  The source field `matches`
is rendered `matchCount` because `matches` is reserved in Lean. -/
structure Player where
  id : String
  name : String
  matchCount : Nat
  asked : Nat
  extra : Nat
  prevMatches : Nat
deriving DecidableEq

/-- The room timer (`intervalId` is scheduling machinery, not state; in the
source the interval is active exactly while `running` is true). -/
structure GameTimer where
  remaining : Int
  running : Bool
deriving DecidableEq

/-- A log entry: `{type:'info'|'q'|'a', text, by}`. -/
inductive LogEntry where
  | info (text : String)
  | q (byName text : String)
  | a (byName text : String)
deriving DecidableEq

/-- Room state, per `createNewGameState` in the source. -/
structure Room where
  cards : List Card
  players : List Player
  flipped : List Nat
  currentPlayer : Nat
  timer : GameTimer
  log : List LogEntry
  gameOver : Bool
deriving DecidableEq

/-- Destination of a socket emission: the whole room (`io.to(roomId)`) or a
single client socket (`io.to(socketId)` / `socket.emit`). -/
inductive Target where
  | room
  | client (id : String)
deriving DecidableEq

/-- The socket events the server emits. -/
inductive EmitMsg where
  | state
  | timerPaused
  | timeUp
  | timerVal (n : Int)
  | gameOverMsg (winnerName : String)
  | askPrompt (remaining : Int)
  | questionForAnswer (fromName text : String)
  | questionAnswered (byName text : String)
  | gameReset
  | roomAssigned
deriving DecidableEq

/-- A single emission. -/
structure Emit where
  target : Target
  msg : EmitMsg
deriving DecidableEq

/-- Acknowledgement callback value (`cb({ok:true})` / `cb({ok:false,error})`);
`none` models a handler path that returns without calling `cb`. -/
inductive Ack where
  | ok
  | error (msg : String)
deriving DecidableEq

/-- Apostrophe character, used in several server strings. -/
def apos : String := String.singleton (Char.ofNat 39)

/-- The tie announcement string from `checkGameOver`. -/
def tieName : String := "It" ++ apos ++ "s a tie!"

/-- The animal catalog `ANIMALS` (name, emoji). -/
def ANIMALS : List (String × String) :=
  [("lion", "🦁"), ("elephant", "🐘"),
   ("fox", "🦊"), ("frog", "🐸"),
   ("cat", "🐱"), ("dog", "🐶"),
   ("panda", "🐼"), ("rabbit", "🐰"),
   ("tiger", "🐯"), ("bear", "🐻")]

/-- The deck before shuffling: the loop in `createNewGameState` pushes two
identical cards per animal, `pairId` running over the catalog indices. -/
def baseDeck : List Card :=
  (ANIMALS.enum.map (fun ip =>
    [{ pairId := ip.1, animal := ip.2.1, emoji := ip.2.2, revealed := false, matched := false },
     { pairId := ip.1, animal := ip.2.1, emoji := ip.2.2, revealed := false, matched := false }])).flatten

/-- One iteration of the Fisher-Yates loop body: swap positions `i` and `j`.
Out-of-range indices leave the list unchanged (they never occur in `shuffle`). -/
def swapAt (l : List α) (i j : Nat) : List α :=
  match l[i]?, l[j]? with
  | some a, some b => (l.set i b).set j a
  | _, _ => l

/-- The Fisher-Yates loop of `shuffle`, counting `i` down from the start
index to 1; at index `i` the random draw `js i` is reduced into `[0, i]`. -/
def shuffleFrom (js : Nat → Nat) : Nat → List α → List α
  | 0, arr => arr
  | Nat.succ k, arr => shuffleFrom js k (swapAt arr (k + 1) (js (k + 1) % (k + 2)))

/-- `shuffle(arr)`: Fisher-Yates from the last index down to 1. -/
def shuffle (js : Nat → Nat) (arr : List α) : List α :=
  shuffleFrom js (arr.length - 1) arr

/-- `createNewGameState()`: fresh shuffled deck, no players, timer at 180
seconds and stopped, empty log, game not over. -/
def createNewGameState (js : Nat → Nat) : Room :=
  { cards := shuffle js baseDeck
    players := []
    flipped := []
    currentPlayer := 0
    timer := { remaining := 180, running := false }
    log := []
    gameOver := false }

/-- `questionsLeft(player) = 5 + (player.extra || 0) - (player.asked || 0)`. -/
def questionsLeft (p : Player) : Int := 5 + (p.extra : Int) - (p.asked : Int)

/-- `pauseTimer(roomId)`: no-op unless running; otherwise clear the interval,
mark not running, and emit `timerPaused`. -/
def pauseTimer (r : Room) : Room × List Emit :=
  if r.timer.running = false then (r, [])
  else ({ r with timer := { r.timer with running := false } }, [⟨.room, .timerPaused⟩])

/-- `startTimer(roomId)`: no-op if running; otherwise mark running (the
interval it installs is modelled by `timerTick` firings). -/
def startTimer (r : Room) : Room :=
  if r.timer.running then r
  else { r with timer := { r.timer with running := true } }

/-- `resumeTimer(roomId)`: no-op if running, else `startTimer`. -/
def resumeTimer (r : Room) : Room :=
  if r.timer.running then r else startTimer r

/-- `checkGameOver(roomId)`.  Returns `none` exactly where the JavaScript
would throw a `TypeError` (reading `.matches` of an absent player). -/
def checkGameOver (r : Room) : Option (Room × List Emit) :=
  if r.gameOver then some (r, [])
  else
    let m0 := ((r.players[0]?).map (·.matchCount)).getD 0
    let m1 := ((r.players[1]?).map (·.matchCount)).getD 0
    if m0 + m1 = 10 then
      match r.players[0]?, r.players[1]? with
      | some p0, some p1 =>
        let re := pauseTimer r
        let r2 := { re.1 with gameOver := true }
        let w := if p0.matchCount > p1.matchCount then p0.name else p1.name
        let w := if p0.matchCount = p1.matchCount then tieName else w
        some (r2, re.2 ++ [⟨.room, .gameOverMsg w⟩])
      | _, _ => none
    else if r.timer.remaining ≤ 0 then
      match r.players[0]?, r.players[1]? with
      | some p0, some p1 =>
        let r2 := { r with gameOver := true }
        let w := if p0.matchCount > p1.matchCount then some p0.name
                 else if p1.matchCount > p0.matchCount then some p1.name else none
        let w := if p0.matchCount = p1.matchCount then some tieName else w
        match w with
        | some nm => some (r2, [⟨.room, .gameOverMsg nm⟩])
        | none => some (r2, [])
      | _, _ => none
    else some (r, [])

/-- One firing of the interval installed by `startTimer`: decrement and
broadcast the remaining time; at zero, stop the timer, emit `timeUp`, log,
broadcast state and run `checkGameOver`. -/
def timerTick (r : Room) : Option (Room × List Emit) :=
  let rem := r.timer.remaining - 1
  let r1 := { r with timer := { r.timer with remaining := rem } }
  if rem ≤ 0 then
    let r2 := { r1 with timer := { r1.timer with running := false },
                        log := .info "Time is up." :: r1.log }
    match checkGameOver r2 with
    | none => none
    | some re =>
      some (re.1, ⟨.room, .timerVal rem⟩ :: ⟨.room, .timeUp⟩ :: ⟨.room, .state⟩ :: re.2)
  else
    some (r1, [⟨.room, .timerVal rem⟩])

/-- The connection handler body (after the room exists): add the session as
a player while the room has fewer than two and the session is new, start
the timer once two players are present and the game is live, send the
session its room id and broadcast state. -/
def connect (r : Room) (sid nm : String) : Room × List Emit :=
  let r1 :=
    if r.players.length < 2 ∧ r.players.find? (fun p => p.id = sid) = none then
      { r with players := r.players ++ [⟨sid, nm, 0, 0, 0, 0⟩],
               log := .info (nm ++ " has joined.") :: r.log }
    else r
  let r2 :=
    if r1.players.length = 2 ∧ r1.timer.running = false ∧ r1.gameOver = false
    then startTimer r1 else r1
  (r2, [⟨.client sid, .roomAssigned⟩, ⟨.room, .state⟩])

/-- The `rematch` handler: reject unless exactly two players; otherwise
install a brand-new game state keeping the two players with zeroed
counters, start the timer, broadcast state and emit `gameReset`. -/
def rematch (js : Nat → Nat) (r : Room) : Room × List Emit × Ack :=
  if r.players.length ≠ 2 then (r, [], .error "Waiting for opponent.")
  else
    let playerNames := r.players.map (·.name)
    let g := createNewGameState js
    let newPlayers := r.players.enum.map (fun ip =>
      { ip.2 with name := playerNames.getD ip.1 ip.2.name,
                  matchCount := 0, asked := 0, extra := 0, prevMatches := 0 })
    let g1 := { g with players := newPlayers }
    let g2 := startTimer g1
    (g2, [⟨.room, .state⟩, ⟨.room, .gameReset⟩], .ok)

/-- The delay constant of the no-match `setTimeout` in the flip handler. -/
def flipBackDelayMs : Nat := 900

/-- Result of one `flip` event: new room, emissions, acknowledgement, and
the deferred flip-back (the `setTimeout(..., 900)` callback) recorded as
the pair of indices it will reset. -/
structure FlipOutcome where
  room : Room
  emits : List Emit
  ack : Option Ack
  deferred : Option (Nat × Nat)
deriving DecidableEq

/-- The `flip` handler.  `none` marks the (unreachable in the claims'
scope) paths where the JavaScript would throw. -/
def flip (r : Room) (sid : String) (idx : Nat) : Option FlipOutcome :=
  if r.gameOver then some ⟨r, [], none, none⟩
  else
    match r.players.findIdx? (fun p => p.id = sid) with
    | none => some ⟨r, [], some (.error "Not your turn."), none⟩
    | some pi =>
      if r.currentPlayer ≠ pi then some ⟨r, [], some (.error "Not your turn."), none⟩
      else
        match r.cards[idx]? with
        | none => some ⟨r, [], none, none⟩
        | some card =>
          if card.revealed ∨ card.matched ∨ r.flipped.length ≥ 2 then
            some ⟨r, [], none, none⟩
          else
            let cards1 := r.cards.set idx { card with revealed := true }
            let flipped1 := r.flipped ++ [idx]
            let r1 := { r with cards := cards1, flipped := flipped1 }
            match flipped1 with
            | [idxA, idxB] =>
              match cards1[idxA]?, cards1[idxB]? with
              | some cardA, some cardB =>
                if cardA.pairId = cardB.pairId then
                  match r1.players[pi]? with
                  | none => none
                  | some player =>
                    let player1 := { player with matchCount := player.matchCount + 1 }
                    let cards2 := (cards1.set idxA { cardA with matched := true }).set idxB
                        { cardB with matched := true }
                    let r2 := { r1 with
                      cards := cards2,
                      players := r1.players.set pi player1,
                      log := .info (player1.name ++ " found a pair (" ++ cardA.animal ++ ").")
                        :: r1.log,
                      flipped := [] }
                    let re3 := pauseTimer r2
                    match checkGameOver re3.1 with
                    | none => none
                    | some re4 =>
                      some ⟨re4.1,
                        ⟨.room, .state⟩ :: re3.2 ++
                          [⟨.room, .state⟩,
                           ⟨.client player1.id, .askPrompt (questionsLeft player1)⟩] ++ re4.2,
                        some .ok, none⟩
                else
                  some ⟨r1, [⟨.room, .state⟩], some .ok, some (idxA, idxB)⟩
              | _, _ => none
            | _ => some ⟨r1, [⟨.room, .state⟩], some .ok, none⟩

/-- The body of the no-match `setTimeout` callback: hide the two cards,
clear `flipped`, pass the turn, log, broadcast. -/
def flipBack (r : Room) (a b : Nat) : Room × List Emit :=
  let cards1 := match r.cards[a]? with
    | some ca => r.cards.set a { ca with revealed := false }
    | none => r.cards
  let cards2 := match cards1[b]? with
    | some cb => cards1.set b { cb with revealed := false }
    | none => cards1
  let cp1 := 1 - r.currentPlayer
  let nm := (((r.players[cp1]?).map (·.name)).getD "undefined")
  ({ r with cards := cards2, flipped := [], currentPlayer := cp1,
            log := .info ("No match. It" ++ apos ++ "s now " ++ nm ++ apos ++ "s turn.")
              :: r.log },
   [⟨.room, .state⟩])

/-- The `askQuestion` handler of the latest revision: silently drop
non-players, then increment `asked` (with no remaining-questions check),
log the question, deliver it to the opponent only, broadcast state. -/
def askQuestion (r : Room) (sid text : String) : Room × List Emit × Option Ack :=
  match r.players.findIdx? (fun p => p.id = sid) with
  | none => (r, [], none)
  | some i =>
    match r.players[i]? with
    | none => (r, [], none)
    | some asker =>
      let asker1 := { asker with asked := asker.asked + 1 }
      let players1 := r.players.set i asker1
      let r1 := { r with players := players1, log := .q asker.name text :: r.log }
      let opEmit := match players1.find? (fun p => p.id ≠ sid) with
        | some opp => [⟨.client opp.id, .questionForAnswer asker.name text⟩]
        | none => ([] : List Emit)
      (r1, opEmit ++ [⟨.room, .state⟩], some .ok)

/-- The `answerQuestion` handler: log an answer under the sender's name or
`Unknown`, broadcast the answer, resume the timer unless the game is over,
broadcast state. -/
def answerQuestion (r : Room) (sid text : String) : Room × List Emit :=
  let nm := (((r.players.find? (fun p => p.id = sid)).map (·.name)).getD "Unknown")
  let r1 := { r with log := .a nm text :: r.log }
  let r2 := if r1.gameOver then r1 else resumeTimer r1
  (r2, [⟨.room, .questionAnswered nm text⟩, ⟨.room, .state⟩])

/-- The `disconnect` handler: remove the player, log, pause the timer, and
mark the game over when fewer than two players remain (room teardown at
zero players happens at the registry level and is not room state). -/
def disconnect (r : Room) (sid : String) : Room × List Emit :=
  match r.players.findIdx? (fun p => p.id = sid) with
  | none => (r, [])
  | some i =>
    let nm := (((r.players[i]?).map (·.name)).getD "")
    let players1 := r.players.eraseIdx i
    let r1 := { r with players := players1,
                       log := .info (nm ++ " has disconnected.") :: r.log }
    let re2 := pauseTimer r1
    let r3 := if re2.1.players.length < 2 then { re2.1 with gameOver := true } else re2.1
    (r3, re2.2 ++ [⟨.room, .state⟩])

/-- One serialized event applied to a room by the event loop.  `rematch` is
absent on purpose: it replaces the room wholesale with a brand-new `Room`
rather than operating on the existing one.  The flip-back step carries the
side condition under which its `setTimeout` callback can fire on a live
room: the two scheduled indices are still the pending flipped pair (no
other event can empty a length-2 `flipped` list in the delay window), and
the tick step fires only while the interval is installed. -/
inductive Step : Room → Room → Prop where
  | flipStep (r : Room) (sid : String) (idx : Nat) (out : FlipOutcome) :
      flip r sid idx = some out → Step r out.room
  | flipBackStep (r : Room) (a b : Nat) :
      r.flipped = [a, b] → Step r (flipBack r a b).1
  | askStep (r : Room) (sid text : String) : Step r (askQuestion r sid text).1
  | answerStep (r : Room) (sid text : String) : Step r (answerQuestion r sid text).1
  | tickStep (r : Room) (re : Room × List Emit) :
      r.timer.running = true → timerTick r = some re → Step r re.1
  | connectStep (r : Room) (sid nm : String) : Step r (connect r sid nm).1
  | disconnectStep (r : Room) (sid : String) : Step r (disconnect r sid).1

/-- The flipped-cards invariant: every index in `flipped` points at an
existing, unmatched card. -/
def Inv (r : Room) : Prop :=
  ∀ i ∈ r.flipped, ∃ c, r.cards[i]? = some c ∧ c.matched = false

/-- Room states reachable from a fresh game by serialized events. -/
def Reachable (js : Nat → Nat) (r : Room) : Prop :=
  Relation.ReflTransGen Step (createNewGameState js) r

/-- The room resulting from the match branch of the flip handler, before
the timer pause and the end-of-game check. -/
def matchedRoom (r : Room) (pi j idx : Nat) (c cj : Card) (p : Player) : Room :=
  { r with
    cards := ((r.cards.set idx { c with revealed := true }).set j
        { cj with matched := true }).set idx { c with revealed := true, matched := true },
    players := r.players.set pi { p with matchCount := p.matchCount + 1 },
    log := .info (p.name ++ " found a pair (" ++ cj.animal ++ ").") :: r.log,
    flipped := [] }

/-- The room resulting from a valid flip that does not resolve a pair yet:
the card at `idx` is revealed and `flipped` holds the pending pair. -/
def revealedRoom (r : Room) (j idx : Nat) (c : Card) : Room :=
  { r with cards := r.cards.set idx { c with revealed := true }, flipped := [j, idx] }

/-- The deterministic random stream whose Fisher-Yates draws leave the
deck in catalog order (`j = i` at every step). -/
def idShuffle : Nat → Nat := fun i => i

/-- Concrete play-through used by the witnesses: fresh room, players `a`
and `b` join, `a` flips card 0, then card 1 (its pair), then card 2. -/
def wRoom0 : Room := createNewGameState idShuffle

def wRoom1 : Room := (connect wRoom0 "a" "A").1

def wRoom2 : Room := (connect wRoom1 "b" "B").1

def wRoom3 : Room := ((flip wRoom2 "a" 0).getD ⟨wRoom2, [], none, none⟩).room

def wRoom4 : Room := ((flip wRoom3 "a" 1).getD ⟨wRoom3, [], none, none⟩).room

def wRoom5 : Room := ((flip wRoom4 "a" 2).getD ⟨wRoom4, [], none, none⟩).room

/-- A room whose first player has exhausted the five-question allowance
(`asked = 5`, `extra = 0`, so `questionsLeft = 0`). -/
def roomOutOfQuestions : Room :=
  { cards := baseDeck
    players := [⟨"s1", "Alice", 0, 5, 0, 0⟩, ⟨"s2", "Bob", 0, 0, 0, 0⟩]
    flipped := []
    currentPlayer := 0
    timer := { remaining := 100, running := false }
    log := []
    gameOver := false }

/-- A finished room (used to witness the post-game-over rejections). -/
def roomFinished : Room :=
  { cards := baseDeck
    players := [⟨"s1", "Alice", 6, 0, 0, 0⟩, ⟨"s2", "Bob", 4, 0, 0, 0⟩]
    flipped := []
    currentPlayer := 0
    timer := { remaining := 50, running := false }
    log := []
    gameOver := true }

/-- A live two-player mid-game room (used by several witnesses). -/
def roomLive : Room :=
  { cards := baseDeck
    players := [⟨"s1", "Alice", 6, 2, 0, 0⟩, ⟨"s2", "Bob", 4, 1, 0, 0⟩]
    flipped := []
    currentPlayer := 0
    timer := { remaining := 0, running := false }
    log := []
    gameOver := false }

theorem count_set_add [DecidableEq α] (x b : α) :
    ∀ (l : List α) (i : Nat) (a : α), l[i]? = some a →
      (l.set i b).count x + [a].count x = l.count x + [b].count x := by
  intro l
  induction l with
  | nil => intro i a h; simp at h
  | cons hd tl ih =>
    intro i a h
    cases i with
    | zero =>
      simp only [List.getElem?_cons_zero, Option.some.injEq] at h
      subst h
      simp only [List.set_cons_zero, List.count_cons, List.count_nil, beq_iff_eq]
      split_ifs <;> omega
    | succ k =>
      simp only [List.getElem?_cons_succ] at h
      have ihk := ih k a h
      have hset : (hd :: tl).set (k + 1) b = hd :: tl.set k b := rfl
      rw [hset]
      simp only [List.count_cons, List.count_nil] at ihk ⊢
      omega

theorem swapAt_perm (l : List α) (i j : Nat) : (swapAt l i j).Perm l := by
  classical
  unfold swapAt
  split
  next a b ha hb =>
    rw [List.perm_iff_count]
    intro x
    have hb' : (l.set i b)[j]? = some b := by
      by_cases hij : i = j
      · subst hij
        have hi : i < l.length := by
          by_contra hn
          simp [List.getElem?_eq_none (Nat.le_of_not_lt hn)] at ha
        simp [List.getElem?_set_self', List.getElem?_eq_getElem hi]
      · rw [List.getElem?_set_ne hij]
        exact hb
    have h1 := count_set_add x b l i a ha
    have h2 := count_set_add x a (l.set i b) j b hb'
    omega
  next => exact List.Perm.refl l

theorem shuffleFrom_perm (js : Nat → Nat) :
    ∀ (n : Nat) (arr : List α), (shuffleFrom js n arr).Perm arr := by
  intro n
  induction n with
  | zero => intro arr; exact List.Perm.refl arr
  | succ k ih =>
    intro arr
    exact (ih _).trans (swapAt_perm _ _ _)

theorem shuffle_perm (js : Nat → Nat) (arr : List α) : (shuffle js arr).Perm arr :=
  shuffleFrom_perm js _ arr

theorem baseDeck_length : baseDeck.length = 20 := by decide

theorem baseDeck_fresh : ∀ c ∈ baseDeck, c.revealed = false ∧ c.matched = false := by decide

theorem baseDeck_countP (pid : Nat) (h : pid < 10) :
    baseDeck.countP (fun c => c.pairId == pid) = 2 := by
  interval_cases pid <;> decide

theorem checkGameOver_frame (r r' : Room) (e : List Emit)
    (h : checkGameOver r = some (r', e)) :
    r'.cards = r.cards ∧ r'.players = r.players ∧ r'.flipped = r.flipped ∧
    r'.log = r.log ∧ r'.currentPlayer = r.currentPlayer ∧
    r'.timer.remaining = r.timer.remaining ∧
    (r.timer.running = false → r'.timer.running = false) ∧
    (∀ em ∈ e, em.target = Target.room) ∧
    (r.gameOver = true → r' = r ∧ e = []) := by
  by_cases hg : r.gameOver
  · simp only [checkGameOver, hg, if_true, Option.some.injEq, Prod.mk.injEq] at h
    obtain ⟨rfl, rfl⟩ := h
    simp_all
  · cases hp0 : r.players[0]? with
    | none =>
      simp only [checkGameOver, hg, hp0] at h
      split_ifs at h <;> simp_all
    | some p0 =>
      cases hp1 : r.players[1]? with
      | none =>
        simp only [checkGameOver, hg, hp0, hp1] at h
        split_ifs at h <;> simp_all
      | some p1 =>
        by_cases hrun : r.timer.running = false <;>
          simp only [checkGameOver, hg, hp0, hp1, pauseTimer, hrun, if_true, if_false,
            Option.map_some', Option.getD_some, Bool.false_eq_true] at h <;>
          split_ifs at h <;>
          simp only [Option.some.injEq, Prod.mk.injEq] at h <;>
          (try obtain ⟨rfl, rfl⟩ := h) <;>
          simp_all

theorem resumeTimer_frame (r : Room) :
    (resumeTimer r).cards = r.cards ∧ (resumeTimer r).players = r.players ∧
    (resumeTimer r).log = r.log ∧ (resumeTimer r).gameOver = r.gameOver ∧
    (resumeTimer r).flipped = r.flipped ∧ (resumeTimer r).currentPlayer = r.currentPlayer := by
  unfold resumeTimer startTimer
  split_ifs <;> simp

theorem resumeTimer_timer (r : Room) : (resumeTimer r).timer = ⟨r.timer.remaining, true⟩ := by
  rcases hT : r.timer with ⟨rem, run⟩
  unfold resumeTimer startTimer
  rw [hT]
  cases run <;> simp [hT]

theorem checkGameOver_total_of_two (r : Room) (h2 : r.players.length = 2) :
    ∃ re : Room × List Emit, checkGameOver r = some re := by
  obtain ⟨p0, p1, hp⟩ := List.length_eq_two.mp h2
  cases hg : r.gameOver
  · unfold checkGameOver
    rw [hp, hg]
    simp only [List.getElem?_cons_zero, List.getElem?_cons_succ, Option.map_some',
      Option.getD_some, Bool.false_eq_true, if_false]
    split_ifs <;> (try split) <;> exact ⟨_, rfl⟩
  · exact ⟨(r, []), by simp [checkGameOver, hg]⟩

/-- C8: every deck produced by `createNewGameState` (used at room creation
and rematch) has exactly 20 cards, each `pairId` in 0..9 appearing exactly
twice, every card starting unrevealed and unmatched, and `shuffle` returns
a permutation of its input (the multiset of cards is preserved). -/
theorem deck_spec :
    (∀ js : Nat → Nat, (createNewGameState js).cards.length = 20) ∧
    (∀ (js : Nat → Nat) (pid : Nat), pid < 10 →
      (createNewGameState js).cards.countP (fun c => c.pairId == pid) = 2) ∧
    (∀ js : Nat → Nat, ∀ c ∈ (createNewGameState js).cards,
      c.revealed = false ∧ c.matched = false) ∧
    (∀ (js : Nat → Nat) (arr : List Card), (shuffle js arr).Perm arr) := by
  refine ⟨?_, ?_, ?_, fun js arr => shuffle_perm js arr⟩
  · intro js
    have h := (shuffle_perm js baseDeck).length_eq
    simpa [createNewGameState, baseDeck_length] using h
  · intro js pid hpid
    have h := (shuffle_perm js baseDeck).countP_eq (fun c => c.pairId == pid)
    simpa [createNewGameState, baseDeck_countP pid hpid] using h
  · intro js c hc
    simp only [createNewGameState] at hc
    exact baseDeck_fresh c (((shuffle_perm js baseDeck).mem_iff).mp hc)

theorem deck_spec_witness :
    (3 : Nat) < 10 ∧
    (createNewGameState idShuffle).cards.countP (fun c => c.pairId == 3) = 2 :=
  ⟨by decide, deck_spec.2.1 idShuffle 3 (by decide)⟩

/-- C2: on a two-player room with the timer already stopped (as at both of
its call sites: after a match, which pauses first, and at timer expiry,
which stops the interval first), `checkGameOver` declares game over exactly
when the match counts sum to 10 or the timer has reached zero and the game
was not already over; on declaring, it sets `gameOver`, leaves the timer
paused, and broadcasts a game-over signal with the strictly-higher-count
player's name, or the tie indicator on equal counts. -/
theorem checkGameOver_spec (r : Room) (p0 p1 : Player)
    (hp : r.players = [p0, p1]) (hrun : r.timer.running = false) :
    (r.gameOver = true → checkGameOver r = some (r, [])) ∧
    (r.gameOver = false → p0.matchCount + p1.matchCount ≠ 10 → 0 < r.timer.remaining →
      checkGameOver r = some (r, [])) ∧
    (r.gameOver = false → (p0.matchCount + p1.matchCount = 10 ∨ r.timer.remaining ≤ 0) →
      checkGameOver r = some ({ r with gameOver := true },
        [⟨.room, .gameOverMsg (if p0.matchCount = p1.matchCount then tieName
            else if p1.matchCount < p0.matchCount then p0.name else p1.name)⟩]) ∧
      ({ r with gameOver := true } : Room).timer.running = false) := by
  refine ⟨fun hg => by simp [checkGameOver, hg], ?_, ?_⟩
  · intro hg hsum hrem
    simp [checkGameOver, hg, hp, hsum, not_le.mpr hrem]
  · intro hg hdecl
    refine ⟨?_, hrun⟩
    by_cases hsum : p0.matchCount + p1.matchCount = 10
    · simp only [checkGameOver, hg, hp, List.getElem?_cons_zero, List.getElem?_cons_succ,
        Option.map_some', Option.getD_some, hsum, if_true, Bool.false_eq_true, if_false,
        pauseTimer, hrun, List.nil_append, gt_iff_lt]
    · have hrem : r.timer.remaining ≤ 0 := hdecl.resolve_left hsum
      simp only [checkGameOver, hg, hp, List.getElem?_cons_zero, List.getElem?_cons_succ,
        Option.map_some', Option.getD_some, hsum, Bool.false_eq_true, if_false,
        hrem, if_true, gt_iff_lt]
      rcases Nat.lt_trichotomy p0.matchCount p1.matchCount with hlt | heq | hgt
      · simp [Nat.ne_of_lt hlt, Nat.lt_asymm hlt, hlt]
      · simp [heq]
      · simp [(Nat.ne_of_lt hgt).symm, Nat.lt_asymm hgt, hgt]

theorem checkGameOver_spec_witness :
    checkGameOver roomLive = some ({ roomLive with gameOver := true },
      [⟨.room, .gameOverMsg "Alice"⟩]) := by
  have h := (checkGameOver_spec roomLive ⟨"s1", "Alice", 6, 2, 0, 0⟩ ⟨"s2", "Bob", 4, 1, 0, 0⟩
    rfl rfl).2.2 rfl (Or.inl rfl)
  simpa using h.1

/-- C9: `answerQuestion` from a player: prepends an Answer log entry under
the player's name, broadcasts the answer room-wide, and the timer ends up
running iff the game is not over (an answer after a match-pause restarts
the clock automatically), leaving cards, players and `gameOver` untouched. -/
theorem answerQuestion_player_spec (r : Room) (sid text : String) (p : Player)
    (hp : r.players.find? (fun q => q.id = sid) = some p) :
    (answerQuestion r sid text).1.log = .a p.name text :: r.log ∧
    (answerQuestion r sid text).2 =
      [⟨.room, .questionAnswered p.name text⟩, ⟨.room, .state⟩] ∧
    (r.gameOver = false →
      (answerQuestion r sid text).1.timer = ⟨r.timer.remaining, true⟩) ∧
    (r.gameOver = true → (answerQuestion r sid text).1.timer = r.timer) ∧
    (answerQuestion r sid text).1.cards = r.cards ∧
    (answerQuestion r sid text).1.players = r.players ∧
    (answerQuestion r sid text).1.gameOver = r.gameOver := by
  have key : answerQuestion r sid text =
      (if r.gameOver then { r with log := .a p.name text :: r.log }
       else resumeTimer { r with log := .a p.name text :: r.log },
       [⟨.room, .questionAnswered p.name text⟩, ⟨.room, .state⟩]) := by
    simp [answerQuestion, hp]
  rw [key]
  cases hg : r.gameOver <;>
    simp [hg, resumeTimer_timer, (resumeTimer_frame _).1, (resumeTimer_frame _).2.1,
      (resumeTimer_frame _).2.2.1, (resumeTimer_frame _).2.2.2.1]

theorem answerQuestion_player_spec_witness :
    (answerQuestion roomLive "s2" "yes").1.log = .a "Bob" "yes" :: roomLive.log ∧
    (answerQuestion roomLive "s2" "yes").1.timer = ⟨roomLive.timer.remaining, true⟩ := by
  have h := answerQuestion_player_spec roomLive "s2" "yes" ⟨"s2", "Bob", 4, 1, 0, 0⟩ (by decide)
  exact ⟨h.1, h.2.2.1 rfl⟩

/-- C10: `answerQuestion` from a session that is not a player is not
rejected: it still prepends an Answer log entry attributed to `Unknown`,
broadcasts it room-wide, and leaves the timer running whenever the game is
not over — a non-member session can mutate room state and restart the
clock. -/
theorem answerQuestion_nonplayer_spec (r : Room) (sid text : String)
    (hp : r.players.find? (fun q => q.id = sid) = none) :
    (answerQuestion r sid text).1.log = .a "Unknown" text :: r.log ∧
    (answerQuestion r sid text).2 =
      [⟨.room, .questionAnswered "Unknown" text⟩, ⟨.room, .state⟩] ∧
    (r.gameOver = false →
      (answerQuestion r sid text).1.timer = ⟨r.timer.remaining, true⟩) := by
  have key : answerQuestion r sid text =
      (if r.gameOver then { r with log := .a "Unknown" text :: r.log }
       else resumeTimer { r with log := .a "Unknown" text :: r.log },
       [⟨.room, .questionAnswered "Unknown" text⟩, ⟨.room, .state⟩]) := by
    simp [answerQuestion, hp]
  rw [key]
  cases hg : r.gameOver <;>
    simp [hg, resumeTimer_timer, (resumeTimer_frame _).2.2.1]

theorem answerQuestion_nonplayer_spec_witness :
    (answerQuestion roomLive "zz" "hm").1.log = .a "Unknown" "hm" :: roomLive.log ∧
    (answerQuestion roomLive "zz" "hm").1.timer = ⟨roomLive.timer.remaining, true⟩ := by
  have h := answerQuestion_nonplayer_spec roomLive "zz" "hm" (by decide)
  exact ⟨h.1, h.2.2 rfl⟩

/-- C1: the latest `askQuestion` handler does not check `questionsLeft` at
all.  With `Alice` at `asked = 5`, `extra = 0` (so `questionsLeft = 0`) the
call is accepted (`cb ok`), her counter is incremented to 6, a Question
log entry is prepended — and `questionsLeft` drops to −1, contradicting
the claimed rejection and the claimed `questionsLeft ≥ 0` consequence. -/
theorem askQuestion_ignores_question_limit :
    questionsLeft ⟨"s1", "Alice", 0, 5, 0, 0⟩ = 0 ∧
    (askQuestion roomOutOfQuestions "s1" "hi").1.players[0]? =
      some ⟨"s1", "Alice", 0, 6, 0, 0⟩ ∧
    (askQuestion roomOutOfQuestions "s1" "hi").2.2 = some .ok ∧
    (askQuestion roomOutOfQuestions "s1" "hi").1.log =
      .q "Alice" "hi" :: roomOutOfQuestions.log ∧
    questionsLeft ⟨"s1", "Alice", 0, 6, 0, 0⟩ = -1 := by
  decide

/-- C5: once `gameOver` is true the room is locked: `checkGameOver` never
declares again (it returns the room unchanged with no emission, so the
game-over signal fires at most once and never both by match count and by
timeout), flips are rejected with no state change and no emission, an
`answerQuestion` does not resume the timer, and a new connection does not
start it. -/
theorem gameOver_locks_room (r : Room) (sid : String) (idx : Nat) (text nm : String)
    (hg : r.gameOver = true) :
    checkGameOver r = some (r, []) ∧
    flip r sid idx = some ⟨r, [], none, none⟩ ∧
    (answerQuestion r sid text).1.timer = r.timer ∧
    (connect r sid nm).1.timer = r.timer := by
  refine ⟨by simp [checkGameOver, hg], by simp [flip, hg], by simp [answerQuestion, hg], ?_⟩
  unfold connect
  dsimp only
  split_ifs with h1 h2 h3 <;> simp_all [startTimer]

theorem gameOver_locks_room_witness :
    checkGameOver roomFinished = some (roomFinished, []) ∧
    flip roomFinished "s3" 0 = some ⟨roomFinished, [], none, none⟩ ∧
    (answerQuestion roomFinished "s3" "x").1.timer = roomFinished.timer ∧
    (connect roomFinished "s3" "C").1.timer = roomFinished.timer :=
  gameOver_locks_room roomFinished "s3" 0 "x" "C" rfl

/-- C6: `rematch` fails (error ack, room unchanged) unless exactly two
players are present; otherwise the room is replaced by a brand-new game:
freshly shuffled deck with every card unrevealed and unmatched, the same
two players (identities and display names preserved) with match, question
and bonus counters zeroed, the timer restarted at the full 180 seconds,
and a state broadcast plus a reset signal. -/
theorem rematch_spec (js : Nat → Nat) (r : Room) (p0 p1 : Player)
    (hp : r.players = [p0, p1]) :
    (rematch js r).1.cards = shuffle js baseDeck ∧
    (∀ c ∈ (rematch js r).1.cards, c.revealed = false ∧ c.matched = false) ∧
    (rematch js r).1.cards.length = 20 ∧
    (rematch js r).1.players =
      [{ p0 with matchCount := 0, asked := 0, extra := 0, prevMatches := 0 },
       { p1 with matchCount := 0, asked := 0, extra := 0, prevMatches := 0 }] ∧
    ((rematch js r).1.players.map (·.name)) = [p0.name, p1.name] ∧
    ((rematch js r).1.players.map (·.id)) = [p0.id, p1.id] ∧
    (rematch js r).1.timer = ⟨180, true⟩ ∧
    (rematch js r).1.flipped = [] ∧
    (rematch js r).1.currentPlayer = 0 ∧
    (rematch js r).1.gameOver = false ∧
    (rematch js r).1.log = [] ∧
    (rematch js r).2 = ([⟨.room, .state⟩, ⟨.room, .gameReset⟩], Ack.ok) ∧
    (∀ r2 : Room, r2.players.length ≠ 2 →
      rematch js r2 = (r2, [], Ack.error "Waiting for opponent.")) := by
  have hfail : ∀ r2 : Room, r2.players.length ≠ 2 →
      rematch js r2 = (r2, [], Ack.error "Waiting for opponent.") := by
    intro r2 h2
    simp [rematch, h2]
  have hcards : (rematch js r).1.cards = shuffle js baseDeck := by
    simp [rematch, hp, startTimer, createNewGameState]
  refine ⟨hcards, ?_, ?_, ?_, ?_, ?_, ?_, ?_, ?_, ?_, ?_, ?_, hfail⟩
  · intro c hc
    rw [hcards] at hc
    exact baseDeck_fresh c ((shuffle_perm js baseDeck).mem_iff.mp hc)
  · rw [hcards, (shuffle_perm js baseDeck).length_eq, baseDeck_length]
  all_goals simp [rematch, hp, startTimer, createNewGameState, List.enum, List.enumFrom]

theorem rematch_spec_witness :
    (rematch idShuffle roomLive).1.players =
      [⟨"s1", "Alice", 0, 0, 0, 0⟩, ⟨"s2", "Bob", 0, 0, 0, 0⟩] ∧
    (rematch idShuffle roomLive).1.timer = ⟨180, true⟩ := by
  have h := rematch_spec idShuffle roomLive ⟨"s1", "Alice", 6, 2, 0, 0⟩
    ⟨"s2", "Bob", 4, 1, 0, 0⟩ rfl
  exact ⟨h.2.2.2.1, h.2.2.2.2.2.2.1⟩

theorem getElem?_some_lt {l : List α} {i : Nat} {a : α} (h : l[i]? = some a) :
    i < l.length := by
  by_contra hn
  simp [List.getElem?_eq_none (Nat.le_of_not_lt hn)] at h

theorem getElem?_set_self_of_some {l : List α} {i : Nat} {a b : α} (h : l[i]? = some a) :
    (l.set i b)[i]? = some b := by
  have hlt := getElem?_some_lt h
  simp [List.getElem?_set_self', List.getElem?_eq_getElem hlt]

theorem pauseTimer_frame (r : Room) :
    (pauseTimer r).1.cards = r.cards ∧ (pauseTimer r).1.players = r.players ∧
    (pauseTimer r).1.flipped = r.flipped ∧ (pauseTimer r).1.log = r.log ∧
    (pauseTimer r).1.gameOver = r.gameOver ∧
    (pauseTimer r).1.currentPlayer = r.currentPlayer ∧
    (pauseTimer r).1.timer.running = false ∧
    (pauseTimer r).1.timer.remaining = r.timer.remaining ∧
    (∀ em ∈ (pauseTimer r).2, em.target = Target.room) := by
  unfold pauseTimer
  split_ifs with h <;> simp [h]

/-- C3: a valid flip completing a matching pair marks both cards matched,
increments the acting player's match count by one, clears `flipped`,
pauses the timer, broadcasts state, signals the ask-question prompt (with
the remaining-question count) to the acting player's socket only — every
other emission is room-wide — and then runs the end-of-game evaluator,
whose outcome is the returned room. -/
theorem flip_match_spec (r : Room) (sid : String) (pi j idx : Nat)
    (c cj : Card) (p : Player)
    (hg : r.gameOver = false)
    (hpi : r.players.findIdx? (fun q => q.id = sid) = some pi)
    (hcp : r.currentPlayer = pi)
    (hfl : r.flipped = [j])
    (hc : r.cards[idx]? = some c) (hrev : c.revealed = false) (hmat : c.matched = false)
    (hcj : r.cards[j]? = some cj) (hrevj : cj.revealed = true)
    (hpair : cj.pairId = c.pairId)
    (hp : r.players[pi]? = some p)
    (h2 : r.players.length = 2) :
    ∃ rNext eNext,
      checkGameOver (pauseTimer (matchedRoom r pi j idx c cj p)).1 = some (rNext, eNext) ∧
      flip r sid idx = some ⟨rNext,
        ⟨.room, .state⟩ :: (pauseTimer (matchedRoom r pi j idx c cj p)).2 ++
          [⟨.room, .state⟩,
           ⟨.client p.id, .askPrompt (questionsLeft { p with matchCount := p.matchCount + 1 })⟩]
          ++ eNext,
        some .ok, none⟩ ∧
      rNext.cards[j]? = some { cj with matched := true } ∧
      rNext.cards[idx]? = some { c with revealed := true, matched := true } ∧
      rNext.players[pi]? = some { p with matchCount := p.matchCount + 1 } ∧
      rNext.flipped = [] ∧
      rNext.timer.running = false ∧
      rNext.log = .info (p.name ++ " found a pair (" ++ cj.animal ++ ").") :: r.log ∧
      (∀ em ∈ eNext, em.target = Target.room) := by
  have hjidx : j ≠ idx := by
    intro h
    subst h
    rw [hc] at hcj
    injection hcj with h'
    rw [h', hrevj] at hrev
    exact Bool.noConfusion hrev
  have hA : (r.cards.set idx { c with revealed := true })[j]? = some cj := by
    rw [List.getElem?_set_ne (Ne.symm hjidx)]
    exact hcj
  have hB : (r.cards.set idx { c with revealed := true })[idx]? =
      some { c with revealed := true } := getElem?_set_self_of_some hc
  have hlen2 : (pauseTimer (matchedRoom r pi j idx c cj p)).1.players.length = 2 := by
    rw [(pauseTimer_frame _).2.1]
    simp [matchedRoom, h2]
  obtain ⟨⟨rNext, eNext⟩, hcg⟩ := checkGameOver_total_of_two _ hlen2
  refine ⟨rNext, eNext, hcg, ?_, ?_⟩
  · unfold flip
    rw [if_neg (by simp [hg])]
    simp only [hpi]
    rw [if_neg (by simp [hcp])]
    simp only [hc]
    rw [if_neg (by rw [hfl]; simp [hrev, hmat])]
    simp only [hfl, List.cons_append, List.nil_append, hA, hB]
    rw [if_pos (by simpa using hpair)]
    simp only [hp]
    have hform : matchedRoom r pi j idx c cj p = { r with
        cards := ((r.cards.set idx { c with revealed := true }).set j
          { cj with matched := true }).set idx { c with revealed := true, matched := true },
        players := r.players.set pi { p with matchCount := p.matchCount + 1 },
        log := .info (p.name ++ " found a pair (" ++ cj.animal ++ ").") :: r.log,
        flipped := [] } := rfl
    rw [hform] at hcg
    rw [hcg]
    rfl
  · have hframe := checkGameOver_frame _ _ _ hcg
    have hpframe := pauseTimer_frame (matchedRoom r pi j idx c cj p)
    have hcards : rNext.cards = (matchedRoom r pi j idx c cj p).cards := by
      rw [hframe.1, hpframe.1]
    have hplayers : rNext.players = (matchedRoom r pi j idx c cj p).players := by
      rw [hframe.2.1, hpframe.2.1]
    have hmc : (matchedRoom r pi j idx c cj p).cards =
        ((r.cards.set idx { c with revealed := true }).set j
          { cj with matched := true }).set idx { c with revealed := true, matched := true } := rfl
    refine ⟨?_, ?_, ?_, ?_, ?_, ?_, ?_⟩
    · rw [hcards, hmc, List.getElem?_set_ne (Ne.symm hjidx)]
      exact getElem?_set_self_of_some hA
    · rw [hcards, hmc]
      have hmid : ((r.cards.set idx { c with revealed := true }).set j
          { cj with matched := true })[idx]? = some { c with revealed := true } := by
        rw [List.getElem?_set_ne hjidx]
        exact hB
      exact getElem?_set_self_of_some hmid
    · rw [hplayers]
      exact getElem?_set_self_of_some hp
    · rw [hframe.2.2.1, hpframe.2.2.1]
      rfl
    · exact hframe.2.2.2.2.2.2.1 hpframe.2.2.2.2.2.2.1
    · rw [hframe.2.2.2.1, hpframe.2.2.2.1]
      rfl
    · exact hframe.2.2.2.2.2.2.2.1

theorem flip_match_spec_witness :
    ∃ out : FlipOutcome, flip wRoom3 "a" 1 = some out ∧
      out.room.cards[0]? = some ⟨0, "lion", "🦁", true, true⟩ ∧
      out.room.cards[1]? = some ⟨0, "lion", "🦁", true, true⟩ ∧
      out.room.flipped = [] ∧ out.room.timer.running = false := by
  obtain ⟨rN, eN, hcg, hflip, h1, h2, h3, h4, h5, h6, h7⟩ :=
    flip_match_spec wRoom3 "a" 0 0 1 ⟨0, "lion", "🦁", false, false⟩
      ⟨0, "lion", "🦁", true, false⟩ ⟨"a", "A", 0, 0, 0, 0⟩
      (by decide) (by decide) (by decide) (by decide) (by decide) (by decide)
      (by decide) (by decide) (by decide) (by decide) (by decide) (by decide)
  exact ⟨_, hflip, h1, h2, h4, h5⟩

/-- C4: a valid flip completing a non-matching pair leaves both cards up,
broadcasts state, acks ok and schedules the deferred flip-back (the
`setTimeout` with the fixed 900 ms delay) on exactly those two indices;
running the deferred callback resets both cards' `revealed` to false,
clears `flipped`, switches `currentPlayer` to the other player, prepends
an info log entry and broadcasts state; and every flip request arriving
while the pair is pending is rejected with no state change, no emission
and no new deferred action (two cards are already flipped). -/
theorem flip_nomatch_spec (r : Room) (sid : String) (pi j idx : Nat)
    (c cj : Card) (q : Player)
    (hg : r.gameOver = false)
    (hpi : r.players.findIdx? (fun w => w.id = sid) = some pi)
    (hcp : r.currentPlayer = pi)
    (hfl : r.flipped = [j])
    (hc : r.cards[idx]? = some c) (hrev : c.revealed = false) (hmat : c.matched = false)
    (hcj : r.cards[j]? = some cj) (hrevj : cj.revealed = true)
    (hpair : cj.pairId ≠ c.pairId)
    (hq : r.players[1 - r.currentPlayer]? = some q) :
    flip r sid idx =
      some ⟨revealedRoom r j idx c, [⟨.room, .state⟩], some .ok, some (j, idx)⟩ ∧
    flipBackDelayMs = 900 ∧
    (flipBack (revealedRoom r j idx c) j idx).1.cards[j]? =
      some { cj with revealed := false } ∧
    (flipBack (revealedRoom r j idx c) j idx).1.cards[idx]? =
      some { c with revealed := false } ∧
    (flipBack (revealedRoom r j idx c) j idx).1.flipped = [] ∧
    (flipBack (revealedRoom r j idx c) j idx).1.currentPlayer = 1 - r.currentPlayer ∧
    (flipBack (revealedRoom r j idx c) j idx).1.log =
      .info ("No match. It" ++ apos ++ "s now " ++ q.name ++ apos ++ "s turn.") ::
        (revealedRoom r j idx c).log ∧
    (flipBack (revealedRoom r j idx c) j idx).2 = [⟨.room, .state⟩] ∧
    (∀ (sid2 : String) (idx2 : Nat), ∃ out : FlipOutcome,
      flip (revealedRoom r j idx c) sid2 idx2 = some out ∧
      out.room = revealedRoom r j idx c ∧ out.emits = [] ∧ out.deferred = none) := by
  have hjidx : j ≠ idx := by
    intro h
    subst h
    rw [hc] at hcj
    injection hcj with h'
    rw [h', hrevj] at hrev
    exact Bool.noConfusion hrev
  have hA : (r.cards.set idx { c with revealed := true })[j]? = some cj := by
    rw [List.getElem?_set_ne (Ne.symm hjidx)]
    exact hcj
  have hB : (r.cards.set idx { c with revealed := true })[idx]? =
      some { c with revealed := true } := getElem?_set_self_of_some hc
  have hmain : flip r sid idx =
      some ⟨revealedRoom r j idx c, [⟨.room, .state⟩], some .ok, some (j, idx)⟩ := by
    unfold flip
    rw [if_neg (by simp [hg])]
    simp only [hpi]
    rw [if_neg (by simp [hcp])]
    simp only [hc]
    rw [if_neg (by rw [hfl]; simp [hrev, hmat])]
    simp only [hfl, List.cons_append, List.nil_append, hA, hB]
    rw [if_neg (by simpa using hpair)]
    rfl
  have hmid : ((r.cards.set idx { c with revealed := true }).set j
      { cj with revealed := false })[idx]? = some { c with revealed := true } := by
    rw [List.getElem?_set_ne hjidx]
    exact hB
  have hfb : flipBack (revealedRoom r j idx c) j idx =
      ({ r with
          cards := ((r.cards.set idx { c with revealed := true }).set j
            { cj with revealed := false }).set idx { c with revealed := false },
          flipped := [],
          currentPlayer := 1 - r.currentPlayer,
          log := .info ("No match. It" ++ apos ++ "s now " ++ q.name ++ apos ++ "s turn.") ::
            (revealedRoom r j idx c).log },
       [⟨.room, .state⟩]) := by
    unfold flipBack revealedRoom
    simp only [hA, hmid, hq]
    rfl
  refine ⟨hmain, rfl, ?_, ?_, ?_, ?_, ?_, ?_, ?_⟩
  · rw [hfb]
    rw [show (({ r with
        cards := ((r.cards.set idx { c with revealed := true }).set j
          { cj with revealed := false }).set idx { c with revealed := false },
        flipped := ([] : List Nat),
        currentPlayer := 1 - r.currentPlayer,
        log := .info ("No match. It" ++ apos ++ "s now " ++ q.name ++ apos ++ "s turn.") ::
          (revealedRoom r j idx c).log } : Room)).cards =
      ((r.cards.set idx { c with revealed := true }).set j
        { cj with revealed := false }).set idx { c with revealed := false } from rfl,
      List.getElem?_set_ne (Ne.symm hjidx)]
    exact getElem?_set_self_of_some hA
  · rw [hfb]
    exact getElem?_set_self_of_some hmid
  · rw [hfb]
  · rw [hfb]
  · rw [hfb]
  · rw [hfb]
  · intro sid2 idx2
    unfold flip
    rw [if_neg (by simp [revealedRoom, hg])]
    cases hfi : (revealedRoom r j idx c).players.findIdx? (fun w => w.id = sid2) with
    | none =>
      simp only [hfi]
      exact ⟨_, rfl, rfl, rfl, rfl⟩
    | some pi2 =>
      simp only [hfi]
      by_cases hcp2 : (revealedRoom r j idx c).currentPlayer ≠ pi2
      · rw [if_pos hcp2]
        exact ⟨_, rfl, rfl, rfl, rfl⟩
      · rw [if_neg hcp2]
        cases hcard2 : (revealedRoom r j idx c).cards[idx2]? with
        | none =>
          simp only [hcard2]
          exact ⟨_, rfl, rfl, rfl, rfl⟩
        | some card2 =>
          simp only [hcard2]
          rw [if_pos (Or.inr (Or.inr (by simp [revealedRoom])))]
          exact ⟨_, rfl, rfl, rfl, rfl⟩

theorem flip_nomatch_spec_witness :
    flip wRoom5 "a" 4 = some ⟨revealedRoom wRoom5 2 4 ⟨2, "fox", "🦊", false, false⟩,
      [⟨.room, .state⟩], some .ok, some (2, 4)⟩ ∧
    (flipBack (revealedRoom wRoom5 2 4 ⟨2, "fox", "🦊", false, false⟩) 2 4).1.currentPlayer = 1 ∧
    (∃ out : FlipOutcome,
      flip (revealedRoom wRoom5 2 4 ⟨2, "fox", "🦊", false, false⟩) "a" 6 = some out ∧
      out.room = revealedRoom wRoom5 2 4 ⟨2, "fox", "🦊", false, false⟩ ∧
      out.emits = [] ∧ out.deferred = none) := by
  have h := flip_nomatch_spec wRoom5 "a" 0 2 4 ⟨2, "fox", "🦊", false, false⟩
      ⟨1, "elephant", "🐘", true, false⟩ ⟨"b", "B", 0, 0, 0, 0⟩
      (by decide) (by decide) (by decide) (by decide) (by decide) (by decide)
      (by decide) (by decide) (by decide) (by decide) (by decide)
  refine ⟨h.1, ?_, h.2.2.2.2.2.2.2.2 "a" 6⟩
  rw [h.2.2.2.2.2.1]
  decide

theorem Inv_of_frame {r r' : Room} (hc : r'.cards = r.cards) (hf : r'.flipped = r.flipped)
    (hInv : Inv r) : Inv r' := by
  intro i hi
  rw [hf] at hi
  rw [hc]
  exact hInv i hi

theorem askQuestion_frame (r : Room) (sid text : String) :
    (askQuestion r sid text).1.cards = r.cards ∧
    (askQuestion r sid text).1.flipped = r.flipped := by
  unfold askQuestion
  cases h : r.players.findIdx? (fun p => p.id = sid) with
  | none => exact ⟨rfl, rfl⟩
  | some i =>
    cases h2 : r.players[i]? with
    | none => simp [h, h2]
    | some asker => simp [h, h2]

theorem answerQuestion_frame (r : Room) (sid text : String) :
    (answerQuestion r sid text).1.cards = r.cards ∧
    (answerQuestion r sid text).1.flipped = r.flipped := by
  unfold answerQuestion
  dsimp only
  split_ifs with h
  · exact ⟨rfl, rfl⟩
  · exact ⟨(resumeTimer_frame _).1, (resumeTimer_frame _).2.2.2.2.1⟩

theorem connect_frame (r : Room) (sid nm : String) :
    (connect r sid nm).1.cards = r.cards ∧ (connect r sid nm).1.flipped = r.flipped := by
  unfold connect startTimer
  dsimp only
  split_ifs <;> simp_all

theorem disconnect_frame (r : Room) (sid : String) :
    (disconnect r sid).1.cards = r.cards ∧ (disconnect r sid).1.flipped = r.flipped := by
  unfold disconnect pauseTimer
  cases h : r.players.findIdx? (fun p => p.id = sid) with
  | none => exact ⟨rfl, rfl⟩
  | some i =>
    simp only [h]
    split_ifs <;> simp

theorem timerTick_frame (r re1 : Room) (e : List Emit) (h : timerTick r = some (re1, e)) :
    re1.cards = r.cards ∧ re1.flipped = r.flipped := by
  unfold timerTick at h
  dsimp only at h
  split_ifs at h with hrem
  · split at h
    · exact absurd h (by simp)
    · next re' hcg =>
      simp only [Option.some.injEq, Prod.mk.injEq] at h
      obtain ⟨h1, _⟩ := h
      subst h1
      have hf := checkGameOver_frame _ re'.1 re'.2 hcg
      exact ⟨hf.1, hf.2.2.1⟩
  · simp only [Option.some.injEq, Prod.mk.injEq] at h
    obtain ⟨h1, _⟩ := h
    subst h1
    exact ⟨rfl, rfl⟩

theorem flip_preserves (r : Room) (sid : String) (idx : Nat) (out : FlipOutcome)
    (hInv : Inv r) (h : flip r sid idx = some out) :
    (∀ (i : Nat) (c : Card), r.cards[i]? = some c → c.matched = true →
      out.room.cards[i]? = some c) ∧
    Inv out.room := by
  unfold flip at h
  by_cases hg : r.gameOver = true
  · rw [if_pos hg] at h
    injection h with h'
    subst h'
    exact ⟨fun i c hc _ => hc, hInv⟩
  · rw [if_neg hg] at h
    cases hfi : r.players.findIdx? (fun p => p.id = sid) with
    | none =>
      simp only [hfi] at h
      injection h with h'
      subst h'
      exact ⟨fun i c hc _ => hc, hInv⟩
    | some pi =>
      simp only [hfi] at h
      by_cases hcp : r.currentPlayer ≠ pi
      · rw [if_pos hcp] at h
        injection h with h'
        subst h'
        exact ⟨fun i c hc _ => hc, hInv⟩
      · rw [if_neg hcp] at h
        cases hcard : r.cards[idx]? with
        | none =>
          simp only [hcard] at h
          injection h with h'
          subst h'
          exact ⟨fun i c hc _ => hc, hInv⟩
        | some card =>
          simp only [hcard] at h
          by_cases hguard : card.revealed = true ∨ card.matched = true ∨ r.flipped.length ≥ 2
          · rw [if_pos hguard] at h
            injection h with h'
            subst h'
            exact ⟨fun i c hc _ => hc, hInv⟩
          · rw [if_neg hguard] at h
            push_neg at hguard
            obtain ⟨hrev, hmat, hlen⟩ := hguard
            have hmat' : card.matched = false := by
              cases hcm : card.matched
              · rfl
              · exact absurd hcm hmat
            have hidx_pres : ∀ (i : Nat) (c : Card), r.cards[i]? = some c →
                c.matched = true → i ≠ idx := by
              intro i c hc hm he
              subst he
              rw [hcard] at hc
              injection hc with h'
              rw [h', hm] at hmat'
              exact Bool.noConfusion hmat'
            have hset_pres : ∀ (i : Nat) (c : Card), r.cards[i]? = some c → c.matched = true →
                (r.cards.set idx { card with revealed := true })[i]? = some c := by
              intro i c hc hm
              rw [List.getElem?_set_ne (Ne.symm (hidx_pres i c hc hm))]
              exact hc
            cases hfl : r.flipped with
            | nil =>
              rw [hfl] at h
              simp only [List.nil_append] at h
              injection h with h'
              subst h'
              refine ⟨fun i c hc hm => hset_pres i c hc hm, ?_⟩
              intro i hi
              simp only [List.mem_singleton] at hi
              subst hi
              exact ⟨{ card with revealed := true },
                getElem?_set_self_of_some hcard, hmat'⟩
            | cons j tl =>
              cases tl with
              | cons k tl2 =>
                rw [hfl] at hlen
                simp at hlen
                omega
              | nil =>
                rw [hfl] at h
                simp only [List.cons_append, List.nil_append] at h
                obtain ⟨cj, hcj, hcjm⟩ := hInv j (by rw [hfl]; exact List.mem_singleton_self j)
                have hj_pres : ∀ (i : Nat) (c : Card), r.cards[i]? = some c →
                    c.matched = true → i ≠ j := by
                  intro i c hc hm he
                  subst he
                  rw [hcj] at hc
                  injection hc with h'
                  rw [h', hm] at hcjm
                  exact Bool.noConfusion hcjm
                have hjlt : j < r.cards.length := getElem?_some_lt hcj
                have hjlt1 : j < (r.cards.set idx { card with revealed := true }).length := by
                  simpa using hjlt
                obtain ⟨cA, hcA⟩ : ∃ x : Card,
                    (r.cards.set idx { card with revealed := true })[j]? = some x :=
                  ⟨_, List.getElem?_eq_getElem hjlt1⟩
                have hcAm : cA.matched = false := by
                  by_cases hji : j = idx
                  · subst hji
                    have := getElem?_set_self_of_some (b := { card with revealed := true }) hcard
                    rw [hcA] at this
                    injection this with h'
                    rw [h']
                    exact hmat'
                  · have := List.getElem?_set_ne (l := r.cards)
                      (a := { card with revealed := true }) (Ne.symm hji)
                    rw [hcA, hcj] at this
                    injection this with h'
                    rw [h']
                    exact hcjm
                have hcB : (r.cards.set idx { card with revealed := true })[idx]? =
                    some { card with revealed := true } := getElem?_set_self_of_some hcard
                rw [hcA, hcB] at h
                dsimp only at h
                by_cases hpid : cA.pairId = ({ card with revealed := true } : Card).pairId
                · rw [if_pos hpid] at h
                  cases hpl : r.players[pi]? with
                  | none =>
                    rw [hpl] at h
                    exact absurd h (by simp)
                  | some player =>
                    rw [hpl] at h
                    dsimp only at h
                    split at h
                    · exact absurd h (by simp)
                    · next re4 hcg =>
                      injection h with h'
                      subst h'
                      have hf := checkGameOver_frame _ re4.1 re4.2 hcg
                      constructor
                      · intro i c hc hm
                        rw [hf.1, (pauseTimer_frame _).1]
                        show (((r.cards.set idx { card with revealed := true }).set j _).set
                          idx _)[i]? = some c
                        rw [List.getElem?_set_ne (Ne.symm (hidx_pres i c hc hm)),
                          List.getElem?_set_ne (Ne.symm (hj_pres i c hc hm))]
                        exact hset_pres i c hc hm
                      · intro i hi
                        rw [hf.2.2.1, (pauseTimer_frame _).2.2.1] at hi
                        simp at hi
                · rw [if_neg hpid] at h
                  injection h with h'
                  subst h'
                  refine ⟨fun i c hc hm => hset_pres i c hc hm, ?_⟩
                  intro i hi
                  simp only [List.mem_cons, List.mem_singleton, List.not_mem_nil,
                    or_false] at hi
                  cases hi with
                  | inl hij =>
                    subst hij
                    exact ⟨_, hcA, hcAm⟩
                  | inr hii =>
                    subst hii
                    exact ⟨{ card with revealed := true }, hcB, hmat'⟩

theorem flipBack_preserves (r : Room) (a b : Nat) (hInv : Inv r) (hfl : r.flipped = [a, b]) :
    (∀ (i : Nat) (c : Card), r.cards[i]? = some c → c.matched = true →
      (flipBack r a b).1.cards[i]? = some c) ∧
    Inv (flipBack r a b).1 := by
  obtain ⟨ca, hca, hcam⟩ := hInv a (by rw [hfl]; simp)
  obtain ⟨cb, hcb, hcbm⟩ := hInv b (by rw [hfl]; simp)
  constructor
  · intro i c hc hm
    have hia : i ≠ a := by
      intro he
      subst he
      rw [hc] at hca
      injection hca with h'
      rw [← h', hm] at hcam
      exact Bool.noConfusion hcam
    have hib : i ≠ b := by
      intro he
      subst he
      rw [hc] at hcb
      injection hcb with h'
      rw [← h', hm] at hcbm
      exact Bool.noConfusion hcbm
    unfold flipBack
    simp only [hca]
    have hblt : b < (r.cards.set a { ca with revealed := false }).length := by
      simpa using getElem?_some_lt hcb
    obtain ⟨cb2, hcb2⟩ : ∃ x : Card,
        (r.cards.set a { ca with revealed := false })[b]? = some x :=
      ⟨_, List.getElem?_eq_getElem hblt⟩
    simp only [hcb2]
    show (((r.cards.set a _).set b _))[i]? = some c
    rw [List.getElem?_set_ne (Ne.symm hib), List.getElem?_set_ne (Ne.symm hia)]
    exact hc
  · intro i hi
    have hfe : (flipBack r a b).1.flipped = [] := rfl
    rw [hfe] at hi
    simp at hi

theorem step_preserves (r r' : Room) (hInv : Inv r) (hs : Step r r') :
    Inv r' ∧ ∀ (i : Nat) (c : Card), r.cards[i]? = some c → c.matched = true →
      r'.cards[i]? = some c := by
  cases hs with
  | flipStep sid idx out h =>
    exact ⟨(flip_preserves _ _ _ _ hInv h).2, (flip_preserves _ _ _ _ hInv h).1⟩
  | flipBackStep a b hfl =>
    exact ⟨(flipBack_preserves _ _ _ hInv hfl).2, (flipBack_preserves _ _ _ hInv hfl).1⟩
  | askStep sid text =>
    have hf := askQuestion_frame r sid text
    exact ⟨Inv_of_frame hf.1 hf.2 hInv, fun i c hc _ => by rw [hf.1]; exact hc⟩
  | answerStep sid text =>
    have hf := answerQuestion_frame r sid text
    exact ⟨Inv_of_frame hf.1 hf.2 hInv, fun i c hc _ => by rw [hf.1]; exact hc⟩
  | tickStep re hrun htick =>
    have hf := timerTick_frame r re.1 re.2 htick
    exact ⟨Inv_of_frame hf.1 hf.2 hInv, fun i c hc _ => by rw [hf.1]; exact hc⟩
  | connectStep sid nm =>
    have hf := connect_frame r sid nm
    exact ⟨Inv_of_frame hf.1 hf.2 hInv, fun i c hc _ => by rw [hf.1]; exact hc⟩
  | disconnectStep sid =>
    have hf := disconnect_frame r sid
    exact ⟨Inv_of_frame hf.1 hf.2 hInv, fun i c hc _ => by rw [hf.1]; exact hc⟩

theorem reachable_inv (js : Nat → Nat) (r : Room) (h : Reachable js r) : Inv r := by
  induction h with
  | refl =>
    intro i hi
    simp [createNewGameState] at hi
  | tail h1 h2 ih => exact (step_preserves _ _ ih h2).1

/-- C7: in every reachable room state, a card that is `matched` is frozen:
whatever serialized event is processed next (flip, deferred flip-back,
ask, answer, timer tick, connection, disconnect), that card's record —
including its `matched` and `revealed` flags — is unchanged, and any flip
targeting it is rejected with no state change, no emission and no deferred
action.  (A `rematch` replaces the room with a brand-new one rather than
operating on this room, so it is outside the step relation.) -/
theorem matched_card_immutable (js : Nat → Nat) (r r' : Room) (i : Nat) (c : Card)
    (hr : Reachable js r) (hs : Step r r')
    (hc : r.cards[i]? = some c) (hm : c.matched = true) :
    r'.cards[i]? = some c ∧
    (∀ sid : String, ∃ out : FlipOutcome, flip r sid i = some out ∧
      out.room = r ∧ out.emits = [] ∧ out.deferred = none) := by
  have hInv := reachable_inv js r hr
  refine ⟨(step_preserves r r' hInv hs).2 i c hc hm, ?_⟩
  intro sid
  unfold flip
  by_cases hg : r.gameOver = true
  · rw [if_pos hg]
    exact ⟨_, rfl, rfl, rfl, rfl⟩
  · rw [if_neg hg]
    cases hfi : r.players.findIdx? (fun p => p.id = sid) with
    | none =>
      simp only [hfi]
      exact ⟨_, rfl, rfl, rfl, rfl⟩
    | some pi =>
      simp only [hfi]
      by_cases hcp : r.currentPlayer ≠ pi
      · rw [if_pos hcp]
        exact ⟨_, rfl, rfl, rfl, rfl⟩
      · rw [if_neg hcp]
        simp only [hc]
        rw [if_pos (Or.inr (Or.inl hm))]
        exact ⟨_, rfl, rfl, rfl, rfl⟩

theorem matched_card_immutable_witness :
    (askQuestion wRoom4 "a" "why").1.cards[0]? =
      some ⟨0, "lion", "🦁", true, true⟩ ∧
    (∃ out : FlipOutcome, flip wRoom4 "b" 0 = some out ∧ out.room = wRoom4 ∧
      out.emits = [] ∧ out.deferred = none) := by
  have hreach : Reachable idShuffle wRoom4 := by
    have h1 : Step wRoom0 wRoom1 := Step.connectStep wRoom0 "a" "A"
    have h2 : Step wRoom1 wRoom2 := Step.connectStep wRoom1 "b" "B"
    have h3 : Step wRoom2 wRoom3 :=
      Step.flipStep wRoom2 "a" 0 ((flip wRoom2 "a" 0).getD ⟨wRoom2, [], none, none⟩) (by decide)
    have h4 : Step wRoom3 wRoom4 :=
      Step.flipStep wRoom3 "a" 1 ((flip wRoom3 "a" 1).getD ⟨wRoom3, [], none, none⟩) (by decide)
    exact Relation.ReflTransGen.tail (Relation.ReflTransGen.tail
      (Relation.ReflTransGen.tail (Relation.ReflTransGen.tail
        Relation.ReflTransGen.refl h1) h2) h3) h4
  have h := matched_card_immutable idShuffle wRoom4 (askQuestion wRoom4 "a" "why").1 0
      ⟨0, "lion", "🦁", true, true⟩ hreach (Step.askStep wRoom4 "a" "why") (by decide) rfl
  exact ⟨h.1, h.2 "b"⟩

end Flippin
